import Mathlib

/-!
# Verification of `gtsam/navigation/AggregateImuReadings.cpp`

Shallow embedding of the IMU preintegration core: the 9-dimensional
tangent-space state, the mean propagator `UpdateEstimate`, the integrator
`integrateMeasurement`, the predictor `predict`, and the covariance
retraction in `noiseModel` / `preintMeasCov`.

Numbers are modelled by `ℚ` (exact arithmetic standing in for `double`).
The external rotation-group utility (`Rot3::Expmap` together with its
derivative, and the Jacobian of `Rot3::rotate` with respect to the
rotation) is out of scope of the repository and is abstracted as a
`RotModel`; the value of `Rot3::rotate` itself is the matrix action
`R *ᵥ v`, which is concrete. `Eigen`'s fixed-size 3×3 `.inverse()` is
the cofactor formula, embedded as `inv3 M = M.det⁻¹ • M.adjugate`.

A 9-vector is a `Vector9` structure with the three 3-blocks `dR`, `dP`,
`dV` of the source's `sugar` namespace. 9×9 and 9×3 matrices are indexed
by `Fin 3 × Fin 3` in block row-major layout: index `(b, i)` is row
`3*b + i` of the Eigen matrix.
-/

namespace AggregateImu

open scoped Matrix

abbrev V3 := Fin 3 → ℚ
abbrev M3 := Matrix (Fin 3) (Fin 3) ℚ
abbrev Idx9 := Fin 3 × Fin 3
abbrev M9 := Matrix Idx9 Idx9 ℚ
abbrev M93 := Matrix Idx9 (Fin 3) ℚ

/-- The tangent-space 9-vector, split into the `dR`/`dP`/`dV` blocks of the
source's `sugar` namespace (rotation, position, velocity increments). -/
structure Vector9 where
  dR : V3
  dP : V3
  dV : V3

/-- `gtsam::skewSymmetric(wx, wy, wz)`. -/
def skewSymmetric (w : V3) : M3 :=
  !![0, -w 2, w 1; w 2, 0, -w 0; -w 1, w 0, 0]

/-- Eigen's fixed-size 3×3 `.inverse()`: the cofactor (adjugate over
determinant) formula, computed unconditionally with no singularity check. -/
def inv3 (M : M3) : M3 := M.det⁻¹ • M.adjugate

/-- The external rotation-group utility (out of scope of the repository,
used as a black box): `Expmap θ` is the rotation matrix `Exp(θ)`, `Dexp θ`
its derivative as returned through the second argument of `Rot3::Expmap`,
and `rotJacR R v` the Jacobian of `R.rotate(v)` with respect to the
rotation, as returned through the first optional argument of
`Rot3::rotate`. -/
structure RotModel where
  Expmap : V3 → M3
  Dexp : V3 → M3
  rotJacR : M3 → V3 → M3

/-- Assemble a 9×9 matrix from a 3×3 grid of 3×3 blocks. -/
def blocks9 (B : Matrix (Fin 3) (Fin 3) M3) : M9 :=
  fun i j => B i.1 j.1 i.2 j.2

/-- Assemble a 9×3 matrix from three vertically stacked 3×3 blocks. -/
def stack93 (B0 B1 B2 : M3) : M93 :=
  fun i j => ![B0, B1, B2] i.1 i.2 j

/-- The `(bi, bj)` 3×3 block of a 9×9 matrix. -/
def blk (M : M9) (bi bj : Fin 3) : M3 := fun i j => M (bi, i) (bj, j)

/-- The `bi`-th 3×3 block of a 9×3 matrix. -/
def blkCol (M : M93) (bi : Fin 3) : M3 := fun i j => M (bi, i) j

/-- The state Jacobian `A` assembled in `UpdateEstimate` (lines 83–87):
identity, then `A(0,0) += skewSymmetric(-0.5*w_dt)`,
`A(3,0) = D_Radt_theta*dt2`, `A(3,6) = I*dt`, `A(6,0) = D_Radt_theta`,
with `D_Radt_theta = D_Radt_R * D_R_theta` and `dt2 = 0.5*dt`. -/
def Amat (m : RotModel) (zeta : Vector9) (correctedAcc correctedOmega : V3)
    (dt : ℚ) : M9 :=
  let a_dt := dt • correctedAcc
  let w_dt := dt • correctedOmega
  let R := m.Expmap zeta.dR
  let D_Radt_theta := m.rotJacR R a_dt * m.Dexp zeta.dR
  let dt2 := (1 / 2 : ℚ) * dt
  blocks9 !![1 + skewSymmetric (-((1 / 2 : ℚ) • w_dt)), 0, 0;
             dt2 • D_Radt_theta, 1, dt • (1 : M3);
             D_Radt_theta, 0, 1]

/-- The specific-force Jacobian `Ba` of `UpdateEstimate` (line 89):
`*Ba << Z_3x3, D_Radt_adt*dt*dt2, D_Radt_adt*dt` where
`D_Radt_adt = R` (the Jacobian of `R.rotate(v)` in `v`). -/
def BaMat (m : RotModel) (zeta : Vector9) (dt : ℚ) : M93 :=
  let D_Radt_adt := m.Expmap zeta.dR
  let dt2 := (1 / 2 : ℚ) * dt
  stack93 0 ((dt * dt2) • D_Radt_adt) (dt • D_Radt_adt)

/-- The angular-rate Jacobian `Bw` of `UpdateEstimate` (line 90):
`*Bw << invH*dt, Z_3x3, Z_3x3`. -/
def BwMat (m : RotModel) (zeta : Vector9) (dt : ℚ) : M93 :=
  stack93 (dt • inv3 (m.Dexp zeta.dR)) 0 0

/-- `AggregateImuReadings::UpdateEstimate` (lines 53–93): exact mean
propagation of the tangent state, with the three optional Jacobians
(`OptionalJacobian` out-parameters modelled as `Bool` request flags and
`Option` results). The mean is computed unconditionally; each Jacobian is
produced only when requested. -/
def UpdateEstimate (m : RotModel) (zeta : Vector9)
    (correctedAcc correctedOmega : V3) (dt : ℚ)
    (wantA wantBa wantBw : Bool) :
    Vector9 × (Option M9 × Option M93 × Option M93) :=
  let a_dt := dt • correctedAcc
  let w_dt := dt • correctedOmega
  let invH := inv3 (m.Dexp zeta.dR)
  let R := m.Expmap zeta.dR
  let Radt := R.mulVec a_dt
  let dt2 := (1 / 2 : ℚ) * dt
  let zeta_plus : Vector9 :=
    ⟨zeta.dR + invH.mulVec w_dt,
     zeta.dP + dt • zeta.dV + dt2 • Radt,
     zeta.dV + Radt⟩
  (zeta_plus,
   (if wantA then some (Amat m zeta correctedAcc correctedOmega dt) else none,
    if wantBa then some (BaMat m zeta dt) else none,
    if wantBw then some (BwMat m zeta dt) else none))

/-- `PreintegrationParams`: gravity and the two continuous-time noise
covariances. `noiseModel::Gaussian::Covariance(C)` stores `C` and its
`covariance()` accessor returns it unchanged, so the integrator reads
these fields directly. -/
structure Params where
  accelerometerCovariance : M3
  gyroscopeCovariance : M3
  n_gravity : V3

/-- `imuBias::ConstantBias`: the fixed bias snapshot. -/
structure Bias where
  accelerometer : V3
  gyroscope : V3

/-- The mutable aggregation state of `AggregateImuReadings`: tangent mean
`zeta_`, covariance `cov_`, sample count `k_`, elapsed time `deltaTij_`. -/
structure AggregationState where
  zeta : Vector9
  cov : M9
  k : ℕ
  deltaTij : ℚ

/-- The constructor (lines 25–37): `zeta_.setZero(); cov_.setZero();`
with `k_(0), deltaTij_(0.0)`. -/
def initialState : AggregationState :=
  { zeta := ⟨0, 0, 0⟩, cov := 0, k := 0, deltaTij := 0 }

/-- `AggregateImuReadings::integrateMeasurement` (lines 95–117): correct
the measurements by the bias snapshot, propagate the mean with all three
Jacobians requested, fold the covariance forward, and bump `k_` and
`deltaTij_`. `UpdateEstimate` with all flags set returns exactly
`(zeta', (some A, some Ba, some Bw))` with `A = Amat …` etc., so the
Jacobians are taken from those definitions directly. Note the source
performs no validation of `dt` whatsoever. -/
def integrateMeasurement (m : RotModel) (p : Params) (estimatedBias : Bias)
    (s : AggregationState) (measuredAcc measuredOmega : V3) (dt : ℚ) :
    AggregationState :=
  let correctedAcc := measuredAcc - estimatedBias.accelerometer
  let correctedOmega := measuredOmega - estimatedBias.gyroscope
  let zeta' := (UpdateEstimate m s.zeta correctedAcc correctedOmega dt
    true true true).1
  let A := Amat m s.zeta correctedAcc correctedOmega dt
  let Ba := BaMat m s.zeta dt
  let Bw := BwMat m s.zeta dt
  let w := dt⁻¹ • p.gyroscopeCovariance
  let a := dt⁻¹ • p.accelerometerCovariance
  { zeta := zeta'
    cov := A * s.cov * Aᵀ + Bw * w * Bwᵀ + Ba * a * Baᵀ
    k := s.k + 1
    deltaTij := s.deltaTij + dt }

/-- Fold `integrateMeasurement` over a finite list of
`(measuredAcc, measuredOmega, dt)` samples. -/
def integrateList (m : RotModel) (p : Params) (b : Bias)
    (s : AggregationState) : List (V3 × V3 × ℚ) → AggregationState
  | [] => s
  | t :: ts => integrateList m p b
      (integrateMeasurement m p b s t.1 t.2.1 t.2.2) ts

/-- The external `NavState`: attitude, position, velocity. Its `retract`
is out of scope and abstracted as a function argument where needed. -/
structure NavState where
  attitude : M3
  position : V3
  velocity : V3

/-- `AggregateImuReadings::predict` (lines 119–136): correct the
aggregated increments for initial velocity and gravity
(`gt = deltaTij_ * n_gravity`;
`dP += Rᵗ * (v_i * deltaTij_ + 0.5 * deltaTij_ * gt)`;
`dV += Rᵗ * gt`) and return `state_i.retract(zeta)`. -/
def predict (retract : NavState → Vector9 → NavState) (p : Params)
    (s : AggregationState) (state_i : NavState) : NavState :=
  let Rit := state_i.attitudeᵀ
  let gt := s.deltaTij • p.n_gravity
  let zeta : Vector9 :=
    ⟨s.zeta.dR,
     s.zeta.dP + Rit.mulVec (s.deltaTij • state_i.velocity +
       ((1 / 2 : ℚ) * s.deltaTij) • gt),
     s.zeta.dV + Rit.mulVec gt⟩
  retract state_i zeta

/-- The retract Jacobian `H` computed in `noiseModel` (lines 142–147):
`H << D_R_theta, 0, 0; 0, iRjᵀ, 0; 0, 0, iRjᵀ` with
`iRj = Exp(theta())`. -/
def retractH (m : RotModel) (s : AggregationState) : M9 :=
  blocks9 !![m.Dexp s.zeta.dR, 0, 0;
             0, (m.Expmap s.zeta.dR)ᵀ, 0;
             0, 0, (m.Expmap s.zeta.dR)ᵀ]

/-- The retracted covariance `HcH = H * cov_ * Hᵀ` computed at line 149
of `noiseModel` — and then never used. -/
def retractedCov (m : RotModel) (s : AggregationState) : M9 :=
  retractH m s * s.cov * (retractH m s)ᵀ

/-- What `AggregateImuReadings::noiseModel` (line 150) actually exposes:
`return noiseModel::Gaussian::Covariance(cov_, false);` — the raw,
un-retracted covariance (`HcH` is computed just above and discarded). -/
def noiseModelCovariance (m : RotModel) (s : AggregationState) : M9 :=
  s.cov

/-- `AggregateImuReadings::preintMeasCov` (lines 178–180):
`noiseModel()->covariance()`. -/
def preintMeasCov (m : RotModel) (s : AggregationState) : M9 :=
  noiseModelCovariance m s

/-- A matrix is symmetric positive semi-definite: the spec-side property
of §3 ("`cov` must remain symmetric positive semi-definite"). Over `ℚ`
the star is trivial, so `Matrix.PosSemidef` is exactly this. -/
def IsSymmPSD (M : M9) : Prop := Mᵀ = M ∧ M.PosSemidef

/- Concrete instances used by witnesses and counterexamples. -/

/-- A concrete rotation model agreeing with the true rotation-group
utility at the identity: `Exp 0 = I`, `Dexp 0 = I`, and the Jacobian of
`v ↦ R v` in `R` vanishes at `v = 0`. Every evaluation below only ever
uses it at those points. -/
def M0 : RotModel :=
  { Expmap := fun _ => 1, Dexp := fun _ => 1, rotJacR := fun _ _ => 0 }

/-- Zero params: zero gravity, zero noise covariances. -/
def P0 : Params :=
  { accelerometerCovariance := 0, gyroscopeCovariance := 0, n_gravity := 0 }

/-- Zero bias snapshot. -/
def B0 : Bias := { accelerometer := 0, gyroscope := 0 }

/-- A state with a nonzero velocity increment and everything else zero. -/
def S1 : AggregationState :=
  { zeta := ⟨0, 0, ![1, 0, 0]⟩, cov := 0, k := 0, deltaTij := 0 }

/-- A rotation model whose `Expmap` is constantly the 90° rotation about
the z-axis (a genuine special-orthogonal matrix, the value of the true
exponential map at `(0, 0, π/2)`). -/
def M1 : RotModel :=
  { Expmap := fun _ => !![0, -1, 0; 1, 0, 0; 0, 0, 1],
    Dexp := fun _ => 1, rotJacR := fun _ _ => 0 }

/-- A state whose covariance has a single nonzero entry in the position
block (symmetric positive semi-definite). -/
def Sc : AggregationState :=
  { zeta := ⟨0, 0, 0⟩,
    cov := fun i j => if i = ((1 : Fin 3), (0 : Fin 3)) ∧ j = (1, 0) then 1 else 0,
    k := 1, deltaTij := 1 }

/-- A trivial retract (projection to the base point) used as a concrete
stand-in for the external `NavState::retract` in witnesses. -/
def retract0 : NavState → Vector9 → NavState := fun s _ => s

/-- A concrete initial `NavState` at rest. -/
def N0 : NavState := { attitude := 1, position := 0, velocity := 0 }

/-! ## Helper lemmas -/

/-- `skewSymmetric` is odd. -/
theorem skewSymmetric_neg (w : V3) : skewSymmetric (-w) = -skewSymmetric w := by
  funext i j
  fin_cases i <;> fin_cases j <;> simp [skewSymmetric]

/-- Conjugating a positive semi-definite matrix by any rectangular matrix
preserves positive semi-definiteness (over `ℚ`, with a plain transpose). -/
theorem posSemidef_conj {J : Type*} [Fintype J] {M : Matrix J J ℚ}
    (hM : M.PosSemidef) (B : Matrix Idx9 J ℚ) : (B * M * Bᵀ).PosSemidef := by
  have h := hM.mul_mul_conjTranspose_same B
  rwa [Matrix.conjTranspose_eq_transpose_of_trivial] at h

/-- A nonnegative scalar multiple of a positive semi-definite matrix is
positive semi-definite. -/
theorem posSemidef_smul {J : Type*} [Fintype J] {c : ℚ} (hc : 0 ≤ c)
    {M : Matrix J J ℚ} (hM : M.PosSemidef) : (c • M).PosSemidef := by
  constructor
  · have h := hM.1
    unfold Matrix.IsHermitian at h ⊢
    rw [Matrix.conjTranspose_smul, star_trivial, h]
  · intro x
    have h := hM.2 x
    rw [Matrix.smul_mulVec_assoc, Matrix.dotProduct_smul, smul_eq_mul]
    exact mul_nonneg hc h

/-- Over `ℚ`, positive semi-definiteness implies symmetry. -/
theorem isSymmPSD_of_posSemidef {M : M9} (h : M.PosSemidef) : IsSymmPSD M :=
  ⟨by rw [← Matrix.conjTranspose_eq_transpose_of_trivial]; exact h.1, h⟩

/-- One `integrateMeasurement` step preserves positive semi-definiteness
of the covariance, given positive semi-definite sensor noise covariances
and a positive time step. -/
theorem integrateMeasurement_psd (m : RotModel) (p : Params) (b : Bias)
    (s : AggregationState) (acc om : V3) (dt : ℚ)
    (hg : p.gyroscopeCovariance.PosSemidef)
    (ha : p.accelerometerCovariance.PosSemidef)
    (hdt : 0 < dt) (hs : s.cov.PosSemidef) :
    (integrateMeasurement m p b s acc om dt).cov.PosSemidef := by
  have hdtinv : (0 : ℚ) ≤ dt⁻¹ := inv_nonneg.mpr hdt.le
  show (Amat m s.zeta _ _ dt * s.cov * (Amat m s.zeta _ _ dt)ᵀ +
      BwMat m s.zeta dt * (dt⁻¹ • p.gyroscopeCovariance) * (BwMat m s.zeta dt)ᵀ +
      BaMat m s.zeta dt * (dt⁻¹ • p.accelerometerCovariance) *
        (BaMat m s.zeta dt)ᵀ).PosSemidef
  exact ((posSemidef_conj hs _).add
      (posSemidef_conj (posSemidef_smul hdtinv hg) _)).add
    (posSemidef_conj (posSemidef_smul hdtinv ha) _)

/-- Folding any list of valid samples preserves positive
semi-definiteness of the covariance. -/
theorem integrateList_psd (m : RotModel) (p : Params) (b : Bias)
    (samples : List (V3 × V3 × ℚ))
    (hg : p.gyroscopeCovariance.PosSemidef)
    (ha : p.accelerometerCovariance.PosSemidef) :
    ∀ s : AggregationState, s.cov.PosSemidef →
      (∀ t ∈ samples, 0 < t.2.2) →
      (integrateList m p b s samples).cov.PosSemidef := by
  induction samples with
  | nil => exact fun s hs _ => hs
  | cons t ts ih =>
      intro s hs hdt
      exact ih _
        (integrateMeasurement_psd m p b s t.1 t.2.1 t.2.2 hg ha
          (hdt t (List.mem_cons_self t ts)) hs)
        (fun u hu => hdt u (List.mem_cons_of_mem t hu))

/-! ## Claims -/

/-- **C10**: the 9-vector mean returned by `UpdateEstimate` is identical
whether or not any of the optional Jacobian outputs are requested:
requesting derivatives never changes the propagated state. -/
theorem updateEstimate_mean_independent_of_jacobians (m : RotModel)
    (zeta : Vector9) (acc om : V3) (dt : ℚ) (a1 b1 w1 a2 b2 w2 : Bool) :
    (UpdateEstimate m zeta acc om dt a1 b1 w1).1 =
    (UpdateEstimate m zeta acc om dt a2 b2 w2).1 := rfl

/-- **C3**: for every tangent state, bias-corrected measurements and
`dt > 0`, one step of the mean propagator returns exactly
`theta' = theta + D⁻¹·(omega·dt)` (with `D` the derivative of `Exp` at
`theta` and the inverse taken by the cofactor formula),
`p' = p + v·dt + 0.5·dt·Radt`, `v' = v + Radt`, where
`Radt = Exp(theta)·(accel·dt)`. -/
theorem updateEstimate_mean_formula (m : RotModel) (zeta : Vector9)
    (acc om : V3) (dt : ℚ) (wa wb ww : Bool) (h : 0 < dt) :
    (UpdateEstimate m zeta acc om dt wa wb ww).1 =
      ⟨zeta.dR + (inv3 (m.Dexp zeta.dR)).mulVec (dt • om),
       zeta.dP + dt • zeta.dV +
         ((1 / 2 : ℚ) * dt) • (m.Expmap zeta.dR).mulVec (dt • acc),
       zeta.dV + (m.Expmap zeta.dR).mulVec (dt • acc)⟩ := rfl

/-- Witness for C3 at a concrete input. -/
theorem updateEstimate_mean_formula_witness :
    (0 : ℚ) < 1 ∧
    (UpdateEstimate M0 ⟨0, 0, 0⟩ 0 0 1 true true true).1 =
      ⟨(0 : V3) + (inv3 (M0.Dexp (0 : V3))).mulVec ((1 : ℚ) • 0),
       (0 : V3) + (1 : ℚ) • (0 : V3) +
         ((1 / 2 : ℚ) * 1) • (M0.Expmap (0 : V3)).mulVec ((1 : ℚ) • 0),
       (0 : V3) + (M0.Expmap (0 : V3)).mulVec ((1 : ℚ) • 0)⟩ :=
  ⟨one_pos, updateEstimate_mean_formula M0 ⟨0, 0, 0⟩ 0 0 1 true true true one_pos⟩

/-- **C6**: when the Jacobians are requested, the returned state-Jacobian
`A` is the identity plus corrections — rotation-self block
`I - skew(0.5·omega·dt)` (first-order approximation), position-vs-rotation
block the exact derivative of `Radt` with respect to `theta` scaled by
`0.5·dt`, velocity-vs-rotation block that same derivative,
position-vs-velocity block `dt·I`, every other off-diagonal block zero and
the remaining diagonal blocks the identity; `Ba` has blocks
`(0, D_Radt_adt·0.5·dt², D_Radt_adt·dt)` with `D_Radt_adt = Exp(theta)`,
and `Bw` has blocks `(D⁻¹·dt, 0, 0)`. -/
theorem updateEstimate_jacobian_blocks (m : RotModel) (zeta : Vector9)
    (acc om : V3) (dt : ℚ) :
    (UpdateEstimate m zeta acc om dt true true true).2 =
      (some (Amat m zeta acc om dt), some (BaMat m zeta dt),
       some (BwMat m zeta dt)) ∧
    blk (Amat m zeta acc om dt) 0 0 =
      1 - skewSymmetric ((1 / 2 : ℚ) • (dt • om)) ∧
    blk (Amat m zeta acc om dt) 0 1 = 0 ∧
    blk (Amat m zeta acc om dt) 0 2 = 0 ∧
    blk (Amat m zeta acc om dt) 1 0 =
      ((1 / 2 : ℚ) * dt) •
        (m.rotJacR (m.Expmap zeta.dR) (dt • acc) * m.Dexp zeta.dR) ∧
    blk (Amat m zeta acc om dt) 1 1 = 1 ∧
    blk (Amat m zeta acc om dt) 1 2 = dt • (1 : M3) ∧
    blk (Amat m zeta acc om dt) 2 0 =
      m.rotJacR (m.Expmap zeta.dR) (dt • acc) * m.Dexp zeta.dR ∧
    blk (Amat m zeta acc om dt) 2 1 = 0 ∧
    blk (Amat m zeta acc om dt) 2 2 = 1 ∧
    blkCol (BaMat m zeta dt) 0 = 0 ∧
    blkCol (BaMat m zeta dt) 1 = ((1 / 2 : ℚ) * dt ^ 2) • m.Expmap zeta.dR ∧
    blkCol (BaMat m zeta dt) 2 = dt • m.Expmap zeta.dR ∧
    blkCol (BwMat m zeta dt) 0 = dt • inv3 (m.Dexp zeta.dR) ∧
    blkCol (BwMat m zeta dt) 1 = 0 ∧
    blkCol (BwMat m zeta dt) 2 = 0 := by
  refine ⟨rfl, ?_, rfl, rfl, rfl, rfl, rfl, rfl, rfl, rfl, rfl, ?_, rfl,
    rfl, rfl, rfl⟩
  · show (1 : M3) + skewSymmetric (-((1 / 2 : ℚ) • (dt • om))) = _
    rw [skewSymmetric_neg, ← sub_eq_add_neg]
  · show (dt * ((1 / 2 : ℚ) * dt)) • m.Expmap zeta.dR = _
    congr 1
    ring

/-- **C5**: `predict` adds to the position block the correction
`Rᵗ·(v_i·T + 0.5·T²·g)` and to the velocity block `Rᵗ·(T·g)`, then
returns `initial_state.retract(corrected_zeta)`; with zero initial
velocity and zero gravity it returns exactly `initial_state.retract(zeta)`
with no correction. -/
theorem predict_correction (retract : NavState → Vector9 → NavState)
    (p : Params) (s : AggregationState) (state_i : NavState) :
    predict retract p s state_i =
      retract state_i
        ⟨s.zeta.dR,
         s.zeta.dP + state_i.attitudeᵀ.mulVec
           (s.deltaTij • state_i.velocity +
             ((1 / 2 : ℚ) * s.deltaTij ^ 2) • p.n_gravity),
         s.zeta.dV + state_i.attitudeᵀ.mulVec (s.deltaTij • p.n_gravity)⟩ ∧
    (state_i.velocity = 0 → p.n_gravity = 0 →
      predict retract p s state_i = retract state_i s.zeta) := by
  constructor
  · show retract state_i _ = retract state_i _
    have hs : ((1 / 2 : ℚ) * s.deltaTij) • (s.deltaTij • p.n_gravity) =
        ((1 / 2 : ℚ) * s.deltaTij ^ 2) • p.n_gravity := by
      rw [smul_smul]
      congr 1
      ring
    rw [hs]
  · intro hv hg
    show retract state_i _ = retract state_i _
    rw [hv, hg]
    simp

/-- Witness for C5 at a concrete input with zero velocity and gravity. -/
theorem predict_correction_witness :
    N0.velocity = 0 ∧ P0.n_gravity = 0 ∧
    predict retract0 P0 initialState N0 = retract0 N0 initialState.zeta :=
  ⟨rfl, rfl, (predict_correction retract0 P0 initialState N0).2 rfl rfl⟩

/-- **C4**: for `dt > 0`, `integrateMeasurement` subtracts the bias
snapshot from the raw samples, replaces `zeta` with the mean propagator's
output for the corrected measurements, sets
`cov' = A·cov·Aᵗ + Bw·(Σ_gyro/dt)·Bwᵗ + Ba·(Σ_accel/dt)·Baᵗ` with the
continuous-time noise covariances taken from `Params`, increments the
sample count and adds `dt` to the elapsed time. -/
theorem integrateMeasurement_step (m : RotModel) (p : Params) (b : Bias)
    (s : AggregationState) (acc om : V3) (dt : ℚ) (h : 0 < dt) :
    integrateMeasurement m p b s acc om dt =
      { zeta := (UpdateEstimate m s.zeta (acc - b.accelerometer)
          (om - b.gyroscope) dt true true true).1
        cov := Amat m s.zeta (acc - b.accelerometer) (om - b.gyroscope) dt *
            s.cov *
            (Amat m s.zeta (acc - b.accelerometer) (om - b.gyroscope) dt)ᵀ +
          BwMat m s.zeta dt * (dt⁻¹ • p.gyroscopeCovariance) *
            (BwMat m s.zeta dt)ᵀ +
          BaMat m s.zeta dt * (dt⁻¹ • p.accelerometerCovariance) *
            (BaMat m s.zeta dt)ᵀ
        k := s.k + 1
        deltaTij := s.deltaTij + dt } := rfl

/-- Witness for C4 at a concrete input. -/
theorem integrateMeasurement_step_witness :
    (0 : ℚ) < 1 ∧
    integrateMeasurement M0 P0 B0 initialState 0 0 1 =
      { zeta := (UpdateEstimate M0 initialState.zeta (0 - B0.accelerometer)
          (0 - B0.gyroscope) 1 true true true).1
        cov := Amat M0 initialState.zeta (0 - B0.accelerometer)
            (0 - B0.gyroscope) 1 * initialState.cov *
            (Amat M0 initialState.zeta (0 - B0.accelerometer)
              (0 - B0.gyroscope) 1)ᵀ +
          BwMat M0 initialState.zeta 1 *
            ((1 : ℚ)⁻¹ • P0.gyroscopeCovariance) *
            (BwMat M0 initialState.zeta 1)ᵀ +
          BaMat M0 initialState.zeta 1 *
            ((1 : ℚ)⁻¹ • P0.accelerometerCovariance) *
            (BaMat M0 initialState.zeta 1)ᵀ
        k := initialState.k + 1
        deltaTij := initialState.deltaTij + 1 } :=
  ⟨one_pos, integrateMeasurement_step M0 P0 B0 initialState 0 0 1 one_pos⟩

/-- **C2 (counterexample)**: the claim says a call with `dt <= 0` signals
an error and leaves the state completely unmodified; but
`integrateMeasurement` with `dt = -1` mutates the state (the sample count
becomes 1). -/
theorem integrate_mutates_on_nonpositive_dt :
    ¬ (integrateMeasurement M0 P0 B0 initialState 0 0 (-1) = initialState) := by
  intro h
  have hk := congrArg AggregationState.k h
  simp [integrateMeasurement, initialState] at hk

/-- **C2 (amended)**: `integrateMeasurement` performs no validation of
`dt` at all: even for `dt <= 0` no error is signaled and the state is
mutated exactly as for a positive step — `zeta` is replaced by the
propagator output computed with the given `dt`, the count is
incremented, `dt` is added to the elapsed time, and for `dt < 0` (where
the division by `dt` is exact-arithmetic-representable) the covariance
is recomputed by the same recursion with the noise covariances divided
by `dt`. -/
theorem integrate_no_dt_validation (m : RotModel) (p : Params) (b : Bias)
    (s : AggregationState) (acc om : V3) (dt : ℚ) (h : dt ≤ 0) :
    (integrateMeasurement m p b s acc om dt).k = s.k + 1 ∧
    (integrateMeasurement m p b s acc om dt).deltaTij = s.deltaTij + dt ∧
    (integrateMeasurement m p b s acc om dt).zeta =
      (UpdateEstimate m s.zeta (acc - b.accelerometer) (om - b.gyroscope) dt
        true true true).1 ∧
    (dt < 0 →
      (integrateMeasurement m p b s acc om dt).cov =
        Amat m s.zeta (acc - b.accelerometer) (om - b.gyroscope) dt *
            s.cov *
            (Amat m s.zeta (acc - b.accelerometer) (om - b.gyroscope) dt)ᵀ +
          BwMat m s.zeta dt * (dt⁻¹ • p.gyroscopeCovariance) *
            (BwMat m s.zeta dt)ᵀ +
          BaMat m s.zeta dt * (dt⁻¹ • p.accelerometerCovariance) *
            (BaMat m s.zeta dt)ᵀ) :=
  ⟨rfl, rfl, rfl, fun _ => rfl⟩

/-- Witness for the amended C2 at `dt = -1`. -/
theorem integrate_no_dt_validation_witness :
    (-1 : ℚ) ≤ 0 ∧ (-1 : ℚ) < 0 ∧
    (integrateMeasurement M0 P0 B0 initialState 0 0 (-1)).k =
      initialState.k + 1 ∧
    (integrateMeasurement M0 P0 B0 initialState 0 0 (-1)).deltaTij =
      initialState.deltaTij + (-1) ∧
    (integrateMeasurement M0 P0 B0 initialState 0 0 (-1)).zeta =
      (UpdateEstimate M0 initialState.zeta (0 - B0.accelerometer)
        (0 - B0.gyroscope) (-1) true true true).1 ∧
    (integrateMeasurement M0 P0 B0 initialState 0 0 (-1)).cov =
      Amat M0 initialState.zeta (0 - B0.accelerometer)
          (0 - B0.gyroscope) (-1) * initialState.cov *
          (Amat M0 initialState.zeta (0 - B0.accelerometer)
            (0 - B0.gyroscope) (-1))ᵀ +
        BwMat M0 initialState.zeta (-1) *
          (((-1 : ℚ))⁻¹ • P0.gyroscopeCovariance) *
          (BwMat M0 initialState.zeta (-1))ᵀ +
        BaMat M0 initialState.zeta (-1) *
          (((-1 : ℚ))⁻¹ • P0.accelerometerCovariance) *
          (BaMat M0 initialState.zeta (-1))ᵀ :=
  ⟨neg_nonpos.mpr zero_le_one, neg_lt_zero.mpr one_pos,
   (integrate_no_dt_validation M0 P0 B0 initialState 0 0 (-1)
     (neg_nonpos.mpr zero_le_one)).1,
   (integrate_no_dt_validation M0 P0 B0 initialState 0 0 (-1)
     (neg_nonpos.mpr zero_le_one)).2.1,
   (integrate_no_dt_validation M0 P0 B0 initialState 0 0 (-1)
     (neg_nonpos.mpr zero_le_one)).2.2.1,
   (integrate_no_dt_validation M0 P0 B0 initialState 0 0 (-1)
     (neg_nonpos.mpr zero_le_one)).2.2.2 (neg_lt_zero.mpr one_pos)⟩

/-- **C8 (counterexample)**: the claim quantifies over every
`AggregationState`, but for a state with a nonzero velocity increment the
position block of `zeta` changes by `dV·dt` even when the sample equals
the bias: integrating the bias with `dt = 1` from `S1` (velocity increment
`(1,0,0)`) moves the position increment, so `zeta` is not left
unchanged. -/
theorem zero_motion_claim_fails :
    ¬ ((integrateMeasurement M0 P0 B0 S1 0 0 1).zeta = S1.zeta ∧
       (integrateMeasurement M0 P0 B0 S1 0 0 1).cov =
         S1.cov +
           (BwMat M0 S1.zeta 1 * ((1 : ℚ)⁻¹ • P0.gyroscopeCovariance) *
              (BwMat M0 S1.zeta 1)ᵀ +
            BaMat M0 S1.zeta 1 * ((1 : ℚ)⁻¹ • P0.accelerometerCovariance) *
              (BaMat M0 S1.zeta 1)ᵀ)) := by
  intro h
  have h0 := congrFun (congrArg Vector9.dP h.1) 0
  simp [integrateMeasurement, UpdateEstimate, S1, B0, M0] at h0

/-- **C8 (amended)**: from the freshly constructed state, integrating a
sample exactly equal to the bias snapshot with any `dt > 0` leaves `zeta`
at zero and sets the covariance to exactly the discretized noise terms
`Bw·(Σ_gyro/dt)·Bwᵗ + Ba·(Σ_accel/dt)·Baᵗ`. -/
theorem zero_motion_from_fresh_state (m : RotModel) (p : Params) (b : Bias)
    (dt : ℚ) (h : 0 < dt) :
    integrateMeasurement m p b initialState b.accelerometer b.gyroscope dt =
      { zeta := ⟨0, 0, 0⟩
        cov := BwMat m ⟨0, 0, 0⟩ dt * (dt⁻¹ • p.gyroscopeCovariance) *
            (BwMat m ⟨0, 0, 0⟩ dt)ᵀ +
          BaMat m ⟨0, 0, 0⟩ dt * (dt⁻¹ • p.accelerometerCovariance) *
            (BaMat m ⟨0, 0, 0⟩ dt)ᵀ
        k := 1
        deltaTij := dt } := by
  simp [integrateMeasurement, UpdateEstimate, initialState, sub_self,
    smul_zero, Matrix.mulVec_zero, Matrix.mul_zero, Matrix.zero_mul]

/-- Witness for the amended C8 at a concrete input. -/
theorem zero_motion_from_fresh_state_witness :
    (0 : ℚ) < 1 ∧
    integrateMeasurement M0 P0 B0 initialState B0.accelerometer
        B0.gyroscope 1 =
      { zeta := ⟨0, 0, 0⟩
        cov := BwMat M0 ⟨0, 0, 0⟩ 1 * ((1 : ℚ)⁻¹ • P0.gyroscopeCovariance) *
            (BwMat M0 ⟨0, 0, 0⟩ 1)ᵀ +
          BaMat M0 ⟨0, 0, 0⟩ 1 * ((1 : ℚ)⁻¹ • P0.accelerometerCovariance) *
            (BaMat M0 ⟨0, 0, 0⟩ 1)ᵀ
        k := 1
        deltaTij := 1 } :=
  ⟨one_pos, zero_motion_from_fresh_state M0 P0 B0 1 one_pos⟩

/-- **C7**: starting from the constructed state, after any finite sequence
of `integrateMeasurement` calls with positive time steps the covariance is
a symmetric positive semi-definite matrix, provided the continuous-time
noise covariances in `Params` are positive semi-definite. -/
theorem covariance_symm_psd (m : RotModel) (p : Params) (b : Bias)
    (samples : List (V3 × V3 × ℚ))
    (hg : p.gyroscopeCovariance.PosSemidef)
    (ha : p.accelerometerCovariance.PosSemidef)
    (hdt : ∀ t ∈ samples, 0 < t.2.2) :
    IsSymmPSD (integrateList m p b initialState samples).cov :=
  isSymmPSD_of_posSemidef
    (integrateList_psd m p b samples hg ha initialState
      Matrix.PosSemidef.zero hdt)

/-- Witness for C7 at a concrete input. -/
theorem covariance_symm_psd_witness :
    P0.gyroscopeCovariance.PosSemidef ∧
    P0.accelerometerCovariance.PosSemidef ∧
    (∀ t ∈ [((0 : V3), (0 : V3), (1 : ℚ))], 0 < t.2.2) ∧
    IsSymmPSD (integrateList M0 P0 B0 initialState
      [((0 : V3), (0 : V3), (1 : ℚ))]).cov :=
  ⟨Matrix.PosSemidef.zero, Matrix.PosSemidef.zero,
   fun t ht => by
     rw [List.mem_singleton] at ht
     rw [ht]
     exact one_pos,
   covariance_symm_psd M0 P0 B0 [((0 : V3), (0 : V3), (1 : ℚ))]
     Matrix.PosSemidef.zero Matrix.PosSemidef.zero
     (fun t ht => by
       rw [List.mem_singleton] at ht
       rw [ht]
       exact one_pos)⟩

/-- **C1**: the consumer-facing covariance (`noiseModel` and
`preintMeasCov`) returns the raw aggregated covariance `cov_`, not the
retracted covariance `H·cov·Hᵗ`: the retraction `HcH` is computed at line
149 and discarded, and at a state with a non-identity final rotation the
two genuinely differ. -/
theorem noiseModel_exposes_raw_covariance :
    (∀ (m : RotModel) (s : AggregationState),
      preintMeasCov m s = s.cov ∧ noiseModelCovariance m s = s.cov) ∧
    retractedCov M1 Sc ≠ preintMeasCov M1 Sc := by
  refine ⟨fun m s => ⟨rfl, rfl⟩, ?_⟩
  intro h
  have h0 := congrFun (congrFun h ((1 : Fin 3), (0 : Fin 3)))
    ((1 : Fin 3), (0 : Fin 3))
  rw [retractedCov, preintMeasCov, noiseModelCovariance] at h0
  simp [Matrix.mul_apply, Fintype.sum_prod_type, Fin.sum_univ_three,
    retractH, blocks9, Sc, M1, Matrix.transpose_apply] at h0

end AggregateImu
